import Mathlib

/-!
Verification of the IRsinn command-encoding pipeline and controller layer.

This file gives a shallow embedding, in Lean, of the translation helpers
`Helper.pronto2lirc` and `Helper.lirc2broadlink` from
`custom_components/irsinn/__init__.py`, of the controller factory
`get_controller`, encoding validation and `BroadlinkController.send` from
`custom_components/irsinn/controller.py`, and of the ZHA learn polling
loop `ZHAController.learn` from the same file.  Python exceptions are
modelled with an explicit error type; integer arithmetic is modelled
exactly over `Nat` / `Int`, and the double-precision arithmetic of
`pronto2lirc` is modelled exactly over `Rat` by a correctly-rounding
binary64 rounding function.
-/

set_option maxRecDepth 4000

/-- Errors the Python code can raise.  `valueError` keeps the message so the
distinct `ValueError` conditions in the source stay distinguishable;
`binasciiError` models `binascii.Error` (a `ValueError` subclass raised by
`unhexlify`); `structError` models `struct.error` from `struct.pack`;
`transportError` models an exception raised by a Home Assistant service
call. -/
inductive PyErr where
  | valueError (msg : String)
  | binasciiError
  | indexError
  | zeroDivisionError
  | structError
  | transportError
deriving DecidableEq, Repr

/-- Python 3 `round` to the nearest integer, ties to even (banker's
rounding), on exact rational values. -/
def pyRound (q : ℚ) : ℤ :=
  let f : ℤ := ⌊q⌋
  let r : ℚ := q - f
  if r < 1/2 then f
  else if 1/2 < r then f + 1
  else if 2 ∣ f then f else f + 1

/-- Floor of the base-2 logarithm of a positive rational: the unique `e`
with `2 ^ e ≤ q < 2 ^ (e + 1)`. -/
def qlog2 (q : ℚ) : ℤ :=
  if 1 ≤ q then (Nat.log 2 ⌊q⌋.toNat : ℤ)
  else -(Nat.clog 2 ⌈1 / q⌉.toNat : ℤ)

/-- Rounds a rational to the nearest IEEE-754 binary64 value (53-bit
significand, round to nearest, ties to even), exactly, for values in the
normal range; every float the embedded expressions produce lies well inside
it (magnitudes between about `6e-5` and `2e9`), so overflow and subnormal
rounding never arise.  The significand `pyRound (q * 2 ^ (52 - e))` lies in
`[2 ^ 52, 2 ^ 53]` and ties round to an even significand, which is the IEEE
tie rule. -/
def fl (q : ℚ) : ℚ :=
  if q = 0 then 0
  else if 0 < q then
    (pyRound (q * (2 : ℚ) ^ ((52 : ℤ) - qlog2 q)) : ℚ) * (2 : ℚ) ^ (qlog2 q - 52)
  else
    -((pyRound ((-q) * (2 : ℚ) ^ ((52 : ℤ) - qlog2 (-q))) : ℚ) *
      (2 : ℚ) ^ (qlog2 (-q) - 52))

/-- Big-endian 16-bit words of a byte string, as computed by
`[int(binascii.hexlify(pronto[i:i+2]), 16) for i in range(0, len(pronto), 2)]`:
pairs of bytes combined big-endian; a trailing lone byte yields itself. -/
def prontoWords : List ℕ → List ℕ
  | [] => []
  | [b] => [b]
  | b1 :: b2 :: rest => (b1 * 256 + b2) :: prontoWords rest

/-- The body of `Helper.pronto2lirc` after the 16-bit words have been
extracted.  Mirrors the Python statement order: `codes[0]` (IndexError on an
empty list, then the "start with 0000" check), then the length check reading
`codes[2]` and `codes[3]` (IndexError when absent), then
`frequency = 1 / (codes[1] * 0.241246)` (ZeroDivisionError when
`codes[1] == 0`), then `[int(round(code / frequency)) for code in codes[4:]]`.
The arithmetic is double precision: the literal `0.241246` denotes the
nearest binary64 value, the products, reciprocal and quotient are each
correctly rounded (`fl`), the operands `codes[1]` and `code` convert to
binary64 exactly (they are below `2 ^ 16`), and Python's `round` acts on the
exact value of the resulting double, ties to even. -/
def pronto2lircCodes (codes : List ℕ) : Except PyErr (List ℤ) :=
  match codes with
  | [] => .error .indexError
  | c0 :: tail =>
    if c0 ≠ 0 then .error (.valueError "Pronto code should start with 0000")
    else
      match tail with
      | c1 :: c2 :: c3 :: rest =>
        if codes.length ≠ 4 + 2 * (c2 + c3) then
          .error (.valueError "Number of pulse widths does not match the preamble")
        else if c1 = 0 then .error .zeroDivisionError
        else
          let frequency : ℚ := fl (1 / fl ((c1 : ℚ) * fl (241246 / 1000000)))
          .ok (rest.map (fun (code : ℕ) => pyRound (fl ((code : ℚ) / frequency))))
      | _ => .error .indexError

namespace Helper

/-- Embeds `Helper.pronto2lirc`: convert a Pronto byte sequence to LIRC pulse
widths, or raise. -/
def pronto2lirc (pronto : List ℕ) : Except PyErr (List ℤ) :=
  pronto2lircCodes (prontoWords pronto)

end Helper

/-- Python `int(pulse * 269 / 8192)`: exact product scaled down by the
power-of-two divisor, truncated toward zero. -/
def pyScale (p : ℤ) : ℤ :=
  if 0 ≤ p then ((p.toNat * 269) / 8192 : ℕ)
  else -(((-p).toNat * 269 / 8192 : ℕ) : ℤ)

/-- Embeds `struct.pack(">B", x)`: one byte, `struct.error` outside `[0, 255]`. -/
def packBE8 (x : ℤ) : Except PyErr (List ℕ) :=
  if 0 ≤ x ∧ x < 256 then .ok [x.toNat] else .error .structError

/-- Embeds `struct.pack(">H", x)`: two big-endian bytes, `struct.error` outside
`[0, 65535]`. -/
def packBE16 (x : ℤ) : Except PyErr (List ℕ) :=
  if 0 ≤ x ∧ x < 65536 then .ok [x.toNat / 256, x.toNat % 256]
  else .error .structError

/-- Embeds `struct.pack("<H", x)`: two little-endian bytes, `struct.error` outside
`[0, 65535]`. -/
def packLE16 (x : ℕ) : Except PyErr (List ℕ) :=
  if x < 65536 then .ok [x % 256, x / 256] else .error .structError

/-- The pulse-encoding loop of `Helper.lirc2broadlink`: each pulse is scaled
and emitted as one byte when the scaled value is below 256, otherwise as a
zero marker byte followed by the big-endian 16-bit scaled value. -/
def broadlinkArray : List ℤ → Except PyErr (List ℕ)
  | [] => .ok []
  | p :: rest =>
    let q := pyScale p
    match (if q < 256 then packBE8 q else
            match packBE16 q with
            | .ok b => .ok (0 :: b)
            | .error e => .error e) with
    | .error e => .error e
    | .ok head =>
      match broadlinkArray rest with
      | .error e => .error e
      | .ok tail => .ok (head ++ tail)

namespace Helper

/-- Embeds `Helper.lirc2broadlink`: LIRC pulses to a Broadlink packet.  Header
`0x26 0x00`, little-endian 16-bit array length, the encoded pulse array,
trailer `0x0D 0x05`, then zero padding so that the packet length plus the
4-byte transport envelope is a multiple of 16. -/
def lirc2broadlink (pulses : List ℤ) : Except PyErr (List ℕ) :=
  match broadlinkArray pulses with
  | .error e => .error e
  | .ok array =>
    match packLE16 array.length with
    | .error e => .error e
    | .ok lenBytes =>
      let packet := [0x26, 0x00] ++ lenBytes ++ array ++ [0x0D, 0x05]
      let remainder := (packet.length + 4) % 16
      .ok (if remainder ≠ 0 then packet ++ List.replicate (16 - remainder) 0 else packet)

end Helper

/-!  Specification-side packet builder, written from the words of the spec
(section 4.1, `lirc2broadlink`), to be compared with the embedded code. -/

/-- Spec wording: scale the pulse to `floor(p * 269 / 8192)`; below 256 emit
one byte, otherwise a zero marker byte followed by the big-endian 16-bit
value. -/
def specEncodePulse (p : ℕ) : List ℕ :=
  let q := p * 269 / 8192
  if q < 256 then [q] else [0, q / 256, q % 256]

/-- Spec wording: the concatenation of the per-pulse encodings. -/
def specArray : List ℕ → List ℕ
  | [] => []
  | p :: rest => specEncodePulse p ++ specArray rest

/-- Spec wording: header `0x26 0x00`, little-endian 16-bit array length, the
array, trailer `0x0D 0x05`, and zero padding making the length plus 4 a
multiple of 16. -/
def specPacket (pulses : List ℕ) : List ℕ :=
  let array := specArray pulses
  let base := [0x26, 0x00, array.length % 256, array.length / 256] ++ array ++ [0x0D, 0x05]
  base ++ List.replicate ((16 - (base.length + 4) % 16) % 16) 0

lemma pyScale_ofNat (p : ℕ) : pyScale (Int.ofNat p) = ((p * 269 / 8192 : ℕ) : ℤ) := by
  simp [pyScale]

lemma broadlinkArray_ofNat (pulses : List ℕ)
    (hp : ∀ p ∈ pulses, p * 269 / 8192 < 65536) :
    broadlinkArray (pulses.map Int.ofNat) = .ok (specArray pulses) := by
  induction pulses with
  | nil => simp [broadlinkArray, specArray]
  | cons p rest ih =>
    have hrest : ∀ q ∈ rest, q * 269 / 8192 < 65536 := fun q hq => hp q (by simp [hq])
    have hph : p * 269 / 8192 < 65536 := hp p (by simp)
    have ihr := ih hrest
    rw [List.map_cons, broadlinkArray, pyScale_ofNat, ihr]
    by_cases hq : p * 269 / 8192 < 256
    · have hq2 : ((p * 269 / 8192 : ℕ) : ℤ) < 256 := by exact_mod_cast hq
      have hnn : (0 : ℤ) ≤ ((p * 269 / 8192 : ℕ) : ℤ) := Int.natCast_nonneg _
      rw [if_pos hq2, packBE8, if_pos ⟨hnn, hq2⟩]
      simp only [Int.toNat_natCast]
      rw [specArray]
      simp [specEncodePulse, hq]
    · have hq2 : ¬ ((p * 269 / 8192 : ℕ) : ℤ) < 256 := by exact_mod_cast hq
      have h65 : ((p * 269 / 8192 : ℕ) : ℤ) < 65536 := by exact_mod_cast hph
      have hnn : (0 : ℤ) ≤ ((p * 269 / 8192 : ℕ) : ℤ) := Int.natCast_nonneg _
      rw [if_neg hq2, packBE16, if_pos ⟨hnn, h65⟩]
      simp only [Int.toNat_natCast]
      rw [specArray]
      simp [specEncodePulse, hq]

/-- C1 counterexample: the pulse duration 1995803 scales to 65536, which does
not fit the 16-bit pack, so `lirc2broadlink` raises `struct.error` instead of
returning a packet. -/
theorem lirc2broadlink_not_total :
    Helper.lirc2broadlink [(1995803 : ℤ)] = .error .structError := by
  rfl

/-- C1 (amended): whenever every scaled pulse fits 16 bits and the encoded
array length fits 16 bits, `lirc2broadlink` returns exactly the packet the
spec describes (header, little-endian 16-bit array length, pulse array with
each pulse as one byte or a zero marker plus big-endian 16-bit value, the
trailer, zero padding), and the packet length plus 4 is divisible by 16. -/
theorem lirc2broadlink_spec (pulses : List ℕ)
    (hp : ∀ p ∈ pulses, p * 269 / 8192 < 65536)
    (hlen : (specArray pulses).length < 65536) :
    Helper.lirc2broadlink (pulses.map Int.ofNat) = .ok (specPacket pulses) ∧
    ((specPacket pulses).length + 4) % 16 = 0 := by
  have harr := broadlinkArray_ofNat pulses hp
  constructor
  · rw [Helper.lirc2broadlink, harr]
    simp only [packLE16, hlen, if_pos, specPacket]
    set A := specArray pulses with hA
    have hb : [(0x26 : ℕ), 0x00] ++ [A.length % 256, A.length / 256] ++ A ++ [0x0D, 0x05]
        = [0x26, 0x00, A.length % 256, A.length / 256] ++ A ++ [0x0D, 0x05] := by simp
    rw [hb]
    set base : List ℕ := [0x26, 0x00, A.length % 256, A.length / 256] ++ A ++ [0x0D, 0x05]
      with hbase
    by_cases hrem : (base.length + 4) % 16 = 0
    · simp [hrem]
    · have h16 : (base.length + 4) % 16 < 16 := Nat.mod_lt _ (by norm_num)
      have hmod : (16 - (base.length + 4) % 16) % 16 = 16 - (base.length + 4) % 16 := by omega
      simp [hrem, hmod]
  · simp only [specPacket, List.length_append, List.length_replicate]
    set b := ([0x26, 0x00, (specArray pulses).length % 256,
      (specArray pulses).length / 256] ++ specArray pulses ++ [0x0D, 0x05]).length
    omega

/-- C1 witness input: the spec's worked example pulses. -/
theorem lirc2broadlink_spec_holds :
    Helper.lirc2broadlink ([410, 603].map Int.ofNat) = .ok (specPacket [410, 603]) ∧
    ((specPacket [410, 603]).length + 4) % 16 = 0 :=
  lirc2broadlink_spec [410, 603] (by decide) (by decide)

/-- The two `ValueError` conditions the spec calls `MalformedCode`. -/
def isMalformed (e : PyErr) : Prop :=
  e = .valueError "Pronto code should start with 0000" ∨
  e = .valueError "Number of pulse widths does not match the preamble"

lemma pronto2lircCodes_malformed_iff (codes : List ℕ) :
    (∃ e, pronto2lircCodes codes = .error e ∧ isMalformed e) ↔
    ((1 ≤ codes.length ∧ codes.getD 0 0 ≠ 0) ∨
     (4 ≤ codes.length ∧ codes.getD 0 0 = 0 ∧
      codes.length ≠ 4 + 2 * (codes.getD 2 0 + codes.getD 3 0))) := by
  match codes with
  | [] => simp [pronto2lircCodes, isMalformed]
  | c0 :: tail =>
    by_cases h0 : c0 = 0
    · subst h0
      match tail with
      | [] => simp [pronto2lircCodes, isMalformed]
      | [c1] => simp [pronto2lircCodes, isMalformed]
      | [c1, c2] => simp [pronto2lircCodes, isMalformed]
      | c1 :: c2 :: c3 :: rest =>
        by_cases hlen : rest.length + 1 + 1 + 1 + 1 = 4 + 2 * (c2 + c3)
        · by_cases h1 : c1 = 0 <;>
            simp [pronto2lircCodes, isMalformed, hlen, h1]
        · simp [pronto2lircCodes, isMalformed, hlen]
    · simp [pronto2lircCodes, isMalformed, h0]

lemma pronto2lircCodes_safe (codes : List ℕ) (h4 : 4 ≤ codes.length)
    (h1 : codes.getD 1 0 ≠ 0) :
    (∃ l, pronto2lircCodes codes = .ok l) ∨
    (∃ e, pronto2lircCodes codes = .error e ∧ isMalformed e) := by
  match codes with
  | [] => simp at h4
  | [a] => simp at h4
  | [a, b] => simp at h4
  | [a, b, c] => simp at h4
  | c0 :: c1 :: c2 :: c3 :: rest =>
    have h1c : c1 ≠ 0 := by simpa using h1
    by_cases h0 : c0 = 0
    · subst h0
      by_cases hlen : rest.length + 1 + 1 + 1 + 1 = 4 + 2 * (c2 + c3)
      · left
        have hok : pronto2lircCodes (0 :: c1 :: c2 :: c3 :: rest) =
            .ok (rest.map (fun (code : ℕ) =>
              pyRound (fl ((code : ℚ) /
                fl (1 / fl ((c1 : ℚ) * fl (241246 / 1000000))))))) := by
          simp [pronto2lircCodes, hlen, h1c]
        exact ⟨_, hok⟩
      · right
        exact ⟨_, by simp [pronto2lircCodes, hlen], Or.inr rfl⟩
    · right
      exact ⟨_, by simp [pronto2lircCodes, h0], Or.inl rfl⟩

lemma pronto2lircCodes_short (codes : List ℕ) (h4 : codes.length < 4)
    (h0 : codes = [] ∨ codes.getD 0 0 = 0) :
    pronto2lircCodes codes = .error .indexError := by
  match codes with
  | [] => rfl
  | [a] =>
    have ha : a = 0 := by simpa using h0
    subst ha; rfl
  | [a, b] =>
    have ha : a = 0 := by simpa using h0
    subst ha; rfl
  | [a, b, c] =>
    have ha : a = 0 := by simpa using h0
    subst ha; rfl
  | c0 :: c1 :: c2 :: c3 :: rest =>
    simp only [List.length_cons] at h4
    omega

lemma pronto2lircCodes_zeroDiv (codes : List ℕ) (h4 : 4 ≤ codes.length)
    (h0 : codes.getD 0 0 = 0)
    (hlen : codes.length = 4 + 2 * (codes.getD 2 0 + codes.getD 3 0))
    (h1 : codes.getD 1 0 = 0) :
    pronto2lircCodes codes = .error .zeroDivisionError := by
  match codes with
  | [] => simp at h4
  | [a] => simp at h4
  | [a, b] => simp at h4
  | [a, b, c] => simp at h4
  | c0 :: c1 :: c2 :: c3 :: rest =>
    have hc0 : c0 = 0 := by simpa using h0
    have hc1 : c1 = 0 := by simpa using h1
    have hl : rest.length + 1 + 1 + 1 + 1 = 4 + 2 * (c2 + c3) := by
      simpa using hlen
    subst hc0; subst hc1
    simp [pronto2lircCodes, hl]

lemma pronto2lircCodes_valid (c1 c2 c3 : ℕ) (rest : List ℕ)
    (hlen : rest.length + 1 + 1 + 1 + 1 = 4 + 2 * (c2 + c3))
    (h1 : c1 ≠ 0) :
    pronto2lircCodes (0 :: c1 :: c2 :: c3 :: rest) =
      .ok (rest.map (fun (code : ℕ) =>
        pyRound (fl ((code : ℚ) /
          fl (1 / fl ((c1 : ℚ) * fl (241246 / 1000000))))))) := by
  simp [pronto2lircCodes, hlen, h1]

/-- C2: for every even-length byte sequence, `pronto2lirc` raises a
`MalformedCode` `ValueError` exactly when the first 16-bit word exists and is
nonzero, or when at least four words exist, the first is zero, and the word
count differs from `4 + 2 * (codes[2] + codes[3])`; no other condition raises
`MalformedCode`. -/
theorem pronto2lirc_malformed_characterization (pronto : List ℕ)
    (heven : pronto.length % 2 = 0) :
    (∃ e, Helper.pronto2lirc pronto = .error e ∧ isMalformed e) ↔
    ((1 ≤ (prontoWords pronto).length ∧ (prontoWords pronto).getD 0 0 ≠ 0) ∨
     (4 ≤ (prontoWords pronto).length ∧ (prontoWords pronto).getD 0 0 = 0 ∧
      (prontoWords pronto).length ≠
        4 + 2 * ((prontoWords pronto).getD 2 0 + (prontoWords pronto).getD 3 0))) :=
  pronto2lircCodes_malformed_iff (prontoWords pronto)

/-- C2 witness: the two-byte input `0x01 0x00` has a nonzero first word and is
reported as `MalformedCode`. -/
theorem pronto2lirc_malformed_characterization_holds :
    ([(1 : ℕ), 0].length % 2 = 0) ∧
    ((∃ e, Helper.pronto2lirc [1, 0] = .error e ∧ isMalformed e) ↔
     ((1 ≤ (prontoWords [1, 0]).length ∧ (prontoWords [1, 0]).getD 0 0 ≠ 0) ∨
      (4 ≤ (prontoWords [1, 0]).length ∧ (prontoWords [1, 0]).getD 0 0 = 0 ∧
       (prontoWords [1, 0]).length ≠
         4 + 2 * ((prontoWords [1, 0]).getD 2 0 + (prontoWords [1, 0]).getD 3 0)))) :=
  ⟨by decide, pronto2lirc_malformed_characterization [1, 0] (by decide)⟩


lemma pyRound_eq_low (q : ℚ) (n : ℤ) (h1 : (n : ℚ) ≤ q) (h2 : q < (n : ℚ) + 1/2) :
    pyRound q = n := by
  have hf : ⌊q⌋ = n := Int.floor_eq_iff.mpr ⟨h1, by linarith⟩
  have hr : q - (n : ℚ) < 1/2 := by linarith
  simp only [pyRound, hf]
  rw [if_pos hr]

lemma pyRound_eq_high (q : ℚ) (n : ℤ) (h1 : (n : ℚ) + 1/2 < q) (h2 : q < (n : ℚ) + 1) :
    pyRound q = n + 1 := by
  have hf : ⌊q⌋ = n := Int.floor_eq_iff.mpr ⟨by linarith, by linarith⟩
  have hr1 : ¬ q - (n : ℚ) < 1/2 := by linarith
  have hr2 : (1 : ℚ)/2 < q - (n : ℚ) := by linarith
  simp only [pyRound, hf]
  rw [if_neg hr1, if_pos hr2]

lemma pyRound_eq_tie_odd (q : ℚ) (n : ℤ) (h : q = (n : ℚ) + 1/2) (hodd : ¬ 2 ∣ n) :
    pyRound q = n + 1 := by
  have hf : ⌊q⌋ = n := Int.floor_eq_iff.mpr ⟨by rw [h]; linarith, by rw [h]; linarith⟩
  have hr1 : ¬ q - (n : ℚ) < 1/2 := by rw [h]; simp
  have hr2 : ¬ (1 : ℚ)/2 < q - (n : ℚ) := by rw [h]; simp
  simp only [pyRound, hf]
  rw [if_neg hr1, if_neg hr2, if_neg hodd]


lemma qlog2_eq_nonneg (q : ℚ) (e : ℕ)
    (h1 : ((2 ^ e : ℕ) : ℚ) ≤ q) (h2 : q < ((2 ^ (e + 1) : ℕ) : ℚ)) :
    qlog2 q = e := by
  have hq1 : 1 ≤ q := le_trans (by exact_mod_cast Nat.one_le_two_pow) h1
  rw [qlog2, if_pos hq1]
  have hfl0 : 0 ≤ ⌊q⌋ := Int.floor_nonneg.mpr (le_trans zero_le_one hq1)
  have hlow : ((2 ^ e : ℕ) : ℤ) ≤ ⌊q⌋ := Int.le_floor.mpr (by exact_mod_cast h1)
  have hhigh : ⌊q⌋ < ((2 ^ (e + 1) : ℕ) : ℤ) := Int.floor_lt.mpr (by exact_mod_cast h2)
  have h1n : 2 ^ e ≤ ⌊q⌋.toNat := (Int.le_toNat hfl0).mpr hlow
  have h2n : ⌊q⌋.toNat < 2 ^ (e + 1) := by
    rw [Int.toNat_lt hfl0]
    exact hhigh
  rw [Nat.log_eq_of_pow_le_of_lt_pow h1n h2n]

lemma qlog2_eq_neg (q : ℚ) (e : ℕ) (h0 : 0 < q)
    (h1 : 1 ≤ q * ((2 ^ e : ℕ) : ℚ)) (h2 : q * ((2 ^ (e - 1) : ℕ) : ℚ) < 1) :
    qlog2 q = -(e : ℤ) := by
  have hpow : (1 : ℚ) ≤ ((2 ^ (e - 1) : ℕ) : ℚ) := by exact_mod_cast Nat.one_le_two_pow
  have hq1 : ¬ 1 ≤ q := by
    intro hq
    nlinarith
  rw [qlog2, if_neg hq1]
  have hup : 1 / q ≤ ((2 ^ e : ℕ) : ℚ) := by
    rw [div_le_iff₀ h0, mul_comm]
    exact h1
  have hdown : ((2 ^ (e - 1) : ℕ) : ℚ) < 1 / q := by
    rw [lt_div_iff₀ h0, mul_comm]
    exact h2
  have hceil_le : ⌈1 / q⌉ ≤ ((2 ^ e : ℕ) : ℤ) := Int.ceil_le.mpr (by exact_mod_cast hup)
  have hceil_gt : ((2 ^ (e - 1) : ℕ) : ℤ) < ⌈1 / q⌉ := Int.lt_ceil.mpr (by exact_mod_cast hdown)
  have hN1 : ⌈1 / q⌉.toNat ≤ 2 ^ e := Int.toNat_le.mpr hceil_le
  have hN2 : 2 ^ (e - 1) < ⌈1 / q⌉.toNat := Int.lt_toNat.mpr hceil_gt
  have hclog_le : Nat.clog 2 ⌈1 / q⌉.toNat ≤ e := (Nat.le_pow_iff_clog_le (by norm_num)).mp hN1
  have hclog_ge : e ≤ Nat.clog 2 ⌈1 / q⌉.toNat := by
    have h3 := (Nat.pow_lt_iff_lt_clog (by norm_num)).mp hN2
    omega
  rw [le_antisymm hclog_le hclog_ge]

lemma fl_eq (q : ℚ) (e m : ℤ) (h0 : 0 < q) (hlog : qlog2 q = e)
    (hm : pyRound (q * (2 : ℚ) ^ ((52 : ℤ) - e)) = m) :
    fl q = (m : ℚ) * (2 : ℚ) ^ (e - 52) := by
  rw [fl, if_neg (ne_of_gt h0), if_pos h0, hlog, hm]


lemma fl_const_0241246 :
    fl (241246 / 1000000 : ℚ) = 8691803165636981 / 36028797018963968 := by
  have eA : qlog2 (241246 / 1000000 : ℚ) = -(3 : ℤ) := by
    simpa using qlog2_eq_neg (241246 / 1000000 : ℚ) 3 (by norm_num) (by norm_num) (by norm_num)
  have mA : pyRound ((241246 / 1000000 : ℚ) * (2 : ℚ) ^ ((52 : ℤ) - -(3 : ℤ))) =
      8691803165636981 := by
    rw [show ((52 : ℤ) - -(3 : ℤ)) = (55 : ℤ) from by norm_num]
    exact pyRound_eq_low _ _ (by norm_num) (by norm_num)
  rw [fl_eq (241246 / 1000000 : ℚ) (-(3 : ℤ)) 8691803165636981 (by norm_num) eA mA]
  norm_num

lemma fl_carrier5 :
    fl ((5 : ℚ) * fl (241246 / 1000000)) = 5432376978523113 / 4503599627370496 := by
  rw [fl_const_0241246]
  rw [show (5 : ℚ) * (8691803165636981 / 36028797018963968) =
      43459015828184905 / 36028797018963968 from by norm_num]
  have eB : qlog2 (43459015828184905 / 36028797018963968 : ℚ) = (0 : ℤ) := by
    simpa using qlog2_eq_nonneg (43459015828184905 / 36028797018963968 : ℚ) 0
      (by norm_num) (by norm_num)
  have mB : pyRound ((43459015828184905 / 36028797018963968 : ℚ) *
      (2 : ℚ) ^ ((52 : ℤ) - (0 : ℤ))) = 5432376978523113 := by
    rw [show ((52 : ℤ) - (0 : ℤ)) = (52 : ℤ) from by norm_num]
    exact pyRound_eq_low _ _ (by norm_num) (by norm_num)
  rw [fl_eq (43459015828184905 / 36028797018963968 : ℚ) (0 : ℤ) 5432376978523113
    (by norm_num) eB mB]
  norm_num

lemma fl_freq5 :
    fl (1 / fl ((5 : ℚ) * fl (241246 / 1000000))) =
      7467231999486825 / 9007199254740992 := by
  rw [fl_carrier5]
  rw [show (1 : ℚ) / (5432376978523113 / 4503599627370496) =
      4503599627370496 / 5432376978523113 from by norm_num]
  have eC : qlog2 (4503599627370496 / 5432376978523113 : ℚ) = -(1 : ℤ) := by
    simpa using qlog2_eq_neg (4503599627370496 / 5432376978523113 : ℚ) 1
      (by norm_num) (by norm_num) (by norm_num)
  have mC : pyRound ((4503599627370496 / 5432376978523113 : ℚ) *
      (2 : ℚ) ^ ((52 : ℤ) - -(1 : ℤ))) = 7467231999486825 := by
    rw [show ((52 : ℤ) - -(1 : ℤ)) = (53 : ℤ) from by norm_num]
    exact (pyRound_eq_high _ 7467231999486824 (by norm_num) (by norm_num)).trans
      (by norm_num)
  rw [fl_eq (4503599627370496 / 5432376978523113 : ℚ) (-(1 : ℤ)) 7467231999486825
    (by norm_num) eC mC]
  norm_num

lemma pulse_50000_carrier5 :
    pyRound (fl ((50000 : ℚ) / fl (1 / fl ((5 : ℚ) * fl (241246 / 1000000))))) =
      60311 := by
  rw [fl_freq5]
  rw [show (50000 : ℚ) / (7467231999486825 / 9007199254740992) =
      18014398509481984000 / 298689279979473 from by norm_num]
  have eD : qlog2 (18014398509481984000 / 298689279979473 : ℚ) = (15 : ℤ) := by
    simpa using qlog2_eq_nonneg (18014398509481984000 / 298689279979473 : ℚ) 15
      (by norm_num) (by norm_num)
  have mD : pyRound ((18014398509481984000 / 298689279979473 : ℚ) *
      (2 : ℚ) ^ ((52 : ℤ) - (15 : ℤ))) = 8289149442326527 := by
    rw [show ((52 : ℤ) - (15 : ℤ)) = (37 : ℤ) from by norm_num]
    exact pyRound_eq_low _ _ (by norm_num) (by norm_num)
  rw [fl_eq (18014398509481984000 / 298689279979473 : ℚ) (15 : ℤ) 8289149442326527
    (by norm_num) eD mD]
  rw [show (8289149442326527 : ℤ) * ((2 : ℚ) ^ ((15 : ℤ) - 52) : ℚ) =
      ((8289149442326527 : ℚ) / 137438953472 : ℚ) from by norm_num]
  exact pyRound_eq_low _ _ (by norm_num) (by norm_num)

lemma pulse_zero (x : ℚ) : pyRound (fl (0 / x)) = 0 := by
  rw [zero_div, fl, if_pos rfl]
  exact pyRound_eq_low _ _ (by norm_num) (by norm_num)


/-- C3 counterexample, two concrete refutations.  First, eight zero bytes
meet every validity condition the claim lists (even length, codes[0] = 0,
word count 4 = 4 + 2*(0+0)), yet `pronto2lirc` raises `ZeroDivisionError`
instead of returning a pulse list: the claim omits the precondition
codes[1] ≠ 0.  Second, the valid bytes `00 00 00 05 00 01 00 00 C3 50 00 00`
(words [0, 5, 1, 0, 50000, 0], codes[1] = 5) make the program return pulse
60311 — the double for 50000/frequency is 60311.49999999999, just below the
exact tie — while the claim's formula read in exact arithmetic demands
round(60311.5) = 60312, so the claimed output formula is false of the
program. -/
theorem pronto2lirc_formula_cex :
    (Helper.pronto2lirc [0, 0, 0, 0, 0, 0, 0, 0] = .error .zeroDivisionError ∧
     ¬ ∃ l, Helper.pronto2lirc [0, 0, 0, 0, 0, 0, 0, 0] = .ok l) ∧
    (Helper.pronto2lirc [0, 0, 0, 5, 0, 1, 0, 0, 0xC3, 0x50, 0, 0] =
       .ok [60311, 0] ∧
     pyRound ((50000 : ℚ) / (1 / ((5 : ℚ) * (241246 / 1000000)))) = 60312) := by
  have h : Helper.pronto2lirc [0, 0, 0, 0, 0, 0, 0, 0] = .error .zeroDivisionError := rfl
  refine ⟨⟨h, ?_⟩, ?_, ?_⟩
  · rintro ⟨l, hl⟩
    rw [h] at hl
    exact Except.noConfusion hl
  · have hw : prontoWords [0, 0, 0, 5, 0, 1, 0, 0, 0xC3, 0x50, 0, 0] =
        [0, 5, 1, 0, 50000, 0] := rfl
    rw [Helper.pronto2lirc, hw]
    rw [pronto2lircCodes_valid 5 1 0 [50000, 0] (by decide) (by decide)]
    simp only [List.map_cons, List.map_nil, Nat.cast_ofNat, Nat.cast_zero]
    rw [pulse_50000_carrier5, pulse_zero]
  · rw [show (50000 : ℚ) / (1 / ((5 : ℚ) * (241246 / 1000000))) =
        ((60311 : ℤ) : ℚ) + 1/2 from by norm_num]
    exact (pyRound_eq_tie_odd _ 60311 rfl (by decide)).trans (by norm_num)

/-- C3 (amended): for every valid Pronto byte sequence whose carrier word
codes[1] is nonzero, `pronto2lirc` returns exactly the pulses
`int(round(codes[4+i] / frequency))` with
`frequency = 1 / (codes[1] * 0.241246)` evaluated in IEEE-754 binary64
arithmetic — each product, reciprocal and quotient correctly rounded
(`fl`) and `round` acting on the exact double value with ties to even —
in input order, and the output length is the word count minus 4
(determinism is definitional: the embedding is a pure function of the
input bytes). -/
theorem pronto2lirc_valid_output (pronto : List ℕ) (c1 c2 c3 : ℕ) (rest : List ℕ)
    (heven : pronto.length % 2 = 0)
    (hw : prontoWords pronto = 0 :: c1 :: c2 :: c3 :: rest)
    (hlen : (prontoWords pronto).length = 4 + 2 * (c2 + c3))
    (h1 : c1 ≠ 0) :
    Helper.pronto2lirc pronto =
      .ok (rest.map (fun (code : ℕ) =>
        pyRound (fl ((code : ℚ) /
          fl (1 / fl ((c1 : ℚ) * fl (241246 / 1000000))))))) ∧
    rest.length = (prontoWords pronto).length - 4 := by
  rw [hw] at hlen
  simp only [List.length_cons] at hlen
  constructor
  · rw [Helper.pronto2lirc, hw]
    exact pronto2lircCodes_valid c1 c2 c3 rest hlen h1
  · rw [hw]
    simp only [List.length_cons]
    omega

/-- C3 witness: the spec's worked example
`0000 0064 0001 0000 0011 0019`. -/
theorem pronto2lirc_valid_output_holds :
    ([(0 : ℕ), 0, 0, 100, 0, 1, 0, 0, 0, 17, 0, 25].length % 2 = 0) ∧
    (Helper.pronto2lirc [0, 0, 0, 100, 0, 1, 0, 0, 0, 17, 0, 25] =
      .ok ([17, 25].map (fun (code : ℕ) =>
        pyRound (fl ((code : ℚ) /
          fl (1 / fl ((100 : ℚ) * fl (241246 / 1000000))))))) ∧
     ([17, 25] : List ℕ).length =
       (prontoWords [0, 0, 0, 100, 0, 1, 0, 0, 0, 17, 0, 25]).length - 4) :=
  ⟨by decide,
   pronto2lirc_valid_output [0, 0, 0, 100, 0, 1, 0, 0, 0, 17, 0, 25] 100 1 0 [17, 25]
     (by decide) (by decide) (by decide) (by decide)⟩

/-- C9: with at least four 16-bit words and a nonzero codes[1], every index
access and the division are safe and `pronto2lirc` either returns a pulse
list or raises `MalformedCode`; with fewer than four words (first word zero
or absent) the unguarded index access raises `IndexError`; with codes[1] = 0
on an otherwise well-formed input the frequency computation raises
`ZeroDivisionError`; and neither `IndexError` nor `ZeroDivisionError` is a
`MalformedCode`. -/
theorem pronto2lirc_failure_modes (pronto : List ℕ) :
    (4 ≤ (prontoWords pronto).length → (prontoWords pronto).getD 1 0 ≠ 0 →
      (∃ l, Helper.pronto2lirc pronto = .ok l) ∨
      (∃ e, Helper.pronto2lirc pronto = .error e ∧ isMalformed e)) ∧
    ((prontoWords pronto).length < 4 →
      (prontoWords pronto = [] ∨ (prontoWords pronto).getD 0 0 = 0) →
      Helper.pronto2lirc pronto = .error .indexError) ∧
    (4 ≤ (prontoWords pronto).length → (prontoWords pronto).getD 0 0 = 0 →
      (prontoWords pronto).length =
        4 + 2 * ((prontoWords pronto).getD 2 0 + (prontoWords pronto).getD 3 0) →
      (prontoWords pronto).getD 1 0 = 0 →
      Helper.pronto2lirc pronto = .error .zeroDivisionError) ∧
    ¬ isMalformed .indexError ∧ ¬ isMalformed .zeroDivisionError := by
  refine ⟨fun h4 h1 => pronto2lircCodes_safe _ h4 h1,
          fun h4 h0 => pronto2lircCodes_short _ h4 h0,
          fun h4 h0 hl h1 => pronto2lircCodes_zeroDiv _ h4 h0 hl h1,
          ?_, ?_⟩ <;> simp [isMalformed]

/-- C9 witness: the worked-example input exercises the safe branch. -/
theorem pronto2lirc_failure_modes_holds :
    4 ≤ (prontoWords [0, 0, 0, 100, 0, 1, 0, 0, 0, 17, 0, 25]).length ∧
    (prontoWords [0, 0, 0, 100, 0, 1, 0, 0, 0, 17, 0, 25]).getD 1 0 ≠ 0 ∧
    ((∃ l, Helper.pronto2lirc [0, 0, 0, 100, 0, 1, 0, 0, 0, 17, 0, 25] = .ok l) ∨
     (∃ e, Helper.pronto2lirc [0, 0, 0, 100, 0, 1, 0, 0, 0, 17, 0, 25] = .error e ∧
       isMalformed e)) :=
  ⟨by decide, by decide,
   (pronto2lirc_failure_modes [0, 0, 0, 100, 0, 1, 0, 0, 0, 17, 0, 25]).1
     (by decide) (by decide)⟩

/-!  Controller kinds, encodings, factory and encoding validation, from
`custom_components/irsinn/controller.py`. -/

/-- The controller kinds the registry in `get_controller` knows. -/
inductive ControllerKind where
  | broadlink
  | xiaomi
  | mqtt
  | lookin
  | esphome
  | zha
deriving DecidableEq, Repr

/-- The `controllers` dict in `get_controller`: kind string to class. -/
def controllerRegistry (s : String) : Option ControllerKind :=
  if s = "Broadlink" then some .broadlink
  else if s = "Xiaomi" then some .xiaomi
  else if s = "MQTT" then some .mqtt
  else if s = "LOOKin" then some .lookin
  else if s = "ESPHome" then some .esphome
  else if s = "ZHA" then some .zha
  else none

/-- The per-class `supported_encodings` tuples. -/
def supported_encodings : ControllerKind → List String
  | .broadlink => ["Base64", "Hex", "Pronto"]
  | .xiaomi => ["Pronto", "Raw"]
  | .mqtt => ["Raw"]
  | .lookin => ["Pronto", "Raw"]
  | .esphome => ["Raw"]
  | .zha => ["Base64", "Raw"]

/-- A constructed controller: the fields `AbstractController.__init__`
stores, plus the class that was instantiated. -/
structure ControllerState where
  kind : ControllerKind
  controller : String
  encoding : String
  controller_data : String
  delay : ℚ
deriving DecidableEq

/-- Embeds `AbstractController.check_encoding`: `ValueError` when the encoding is
not in the class's `supported_encodings`. -/
def check_encoding (kind : ControllerKind) (controllerName encoding : String) :
    Except PyErr Unit :=
  if encoding ∈ supported_encodings kind then .ok ()
  else .error (.valueError
    ("The encoding is not supported by the " ++ controllerName ++ " controller."))

/-- Embeds `get_controller`: look the kind string up in the registry (`ValueError`
"The controller is not supported." when absent), then construct the class,
whose `__init__` stores the fields and runs `check_encoding`. -/
def get_controller (controller encoding controller_data : String) (delay : ℚ) :
    Except PyErr ControllerState :=
  match controllerRegistry controller with
  | none => .error (.valueError "The controller is not supported.")
  | some k =>
    match check_encoding k controller encoding with
    | .error e => .error e
    | .ok _ => .ok ⟨k, controller, encoding, controller_data, delay⟩

/-- C6: a kind string outside the static registry always fails with
`UnsupportedControllerKind`; a registered kind constructs the variant with
its fields and validates the encoding at construction, failing with
`UnsupportedEncoding` exactly when the encoding is outside that kind's
supported set; Xiaomi accepts Pronto and Raw and rejects Base64. -/
theorem get_controller_spec (controller encoding controller_data : String) (delay : ℚ) :
    (controllerRegistry controller = none →
      get_controller controller encoding controller_data delay =
        .error (.valueError "The controller is not supported.")) ∧
    (∀ k, controllerRegistry controller = some k →
      (encoding ∉ supported_encodings k →
        get_controller controller encoding controller_data delay =
          .error (.valueError
            ("The encoding is not supported by the " ++ controller ++ " controller."))) ∧
      (encoding ∈ supported_encodings k →
        get_controller controller encoding controller_data delay =
          .ok ⟨k, controller, encoding, controller_data, delay⟩)) ∧
    (get_controller "Xiaomi" "Pronto" controller_data delay =
      .ok ⟨.xiaomi, "Xiaomi", "Pronto", controller_data, delay⟩) ∧
    (get_controller "Xiaomi" "Raw" controller_data delay =
      .ok ⟨.xiaomi, "Xiaomi", "Raw", controller_data, delay⟩) ∧
    (get_controller "Xiaomi" "Base64" controller_data delay =
      .error (.valueError "The encoding is not supported by the Xiaomi controller.")) := by
  refine ⟨fun hn => ?_, fun k hk => ⟨fun hmem => ?_, fun hmem => ?_⟩, rfl, rfl, rfl⟩
  · rw [get_controller, hn]
  · rw [get_controller, hk]
    simp [check_encoding, hmem]
  · rw [get_controller, hk]
    simp [check_encoding, hmem]

/-- C6 witness: an unregistered kind string. -/
theorem get_controller_spec_holds :
    controllerRegistry "Tasmota" = none ∧
    get_controller "Tasmota" "Raw" "remote.x" 0 =
      .error (.valueError "The controller is not supported.") :=
  ⟨by decide,
   (get_controller_spec "Tasmota" "Raw" "remote.x" 0).1 (by decide)⟩

/-!  Hex and Base64 codecs used by `BroadlinkController.send`. -/

/-- Value of one hexadecimal digit character. -/
def hexVal (c : Char) : Option ℕ :=
  if '0' ≤ c ∧ c ≤ '9' then some (c.toNat - '0'.toNat)
  else if 'a' ≤ c ∧ c ≤ 'f' then some (c.toNat - 'a'.toNat + 10)
  else if 'A' ≤ c ∧ c ≤ 'F' then some (c.toNat - 'A'.toNat + 10)
  else none

/-- Bytes of an even-length hex digit string; `none` on an odd length or a
non-hex character. -/
def hexPairs : List Char → Option (List ℕ)
  | [] => some []
  | [_] => none
  | c1 :: c2 :: rest =>
    match hexVal c1, hexVal c2, hexPairs rest with
    | some a, some b, some t => some ((a * 16 + b) :: t)
    | _, _, _ => none

/-- Embeds `binascii.unhexlify`: `binascii.Error` on an odd length or a bad digit. -/
def unhexlify (s : String) : Except PyErr (List ℕ) :=
  match hexPairs s.toList with
  | some bytes => .ok bytes
  | none => .error .binasciiError

/-- Embeds `bytearray.fromhex`: `ValueError` on a bad hex string. -/
def fromhex (s : String) : Except PyErr (List ℕ) :=
  match hexPairs s.toList with
  | some bytes => .ok bytes
  | none => .error (.valueError "non-hexadecimal number found in fromhex() arg")

/-- Embeds `item.replace(" ", "")`. -/
def stripSpaces (s : String) : String :=
  String.mk (s.toList.filter (fun c => c ≠ ' '))

/-- Character `n` of the standard Base64 alphabet. -/
def b64Char (n : ℕ) : Char :=
  "ABCDEFGHIJKLMNOPQRSTUVWXYZabcdefghijklmnopqrstuvwxyz0123456789+/".toList.getD n '='

/-- Standard Base64 of a byte list, with `=` padding. -/
def b64Chars : List ℕ → List Char
  | a :: b :: c :: rest =>
    b64Char (a / 4) :: b64Char (a % 4 * 16 + b / 16) ::
      b64Char (b % 16 * 4 + c / 64) :: b64Char (c % 64) :: b64Chars rest
  | [a, b] => [b64Char (a / 4), b64Char (a % 4 * 16 + b / 16), b64Char (b % 16 * 4), '=']
  | [a] => [b64Char (a / 4), b64Char (a % 4 * 16), '=', '=']
  | [] => []

/-- Embeds `base64.b64encode(...).decode("utf-8")`. -/
def b64encode (bs : List ℕ) : String := String.mk (b64Chars bs)

/-- The `except (binascii.Error, ValueError)` clause of the Pronto branch of
`BroadlinkController.send`: `binascii.Error` and every `ValueError` are
caught; other exceptions propagate. -/
def caughtByPronto (e : PyErr) : Bool :=
  match e with
  | .valueError _ => true
  | .binasciiError => true
  | _ => false

/-- One loop iteration of `BroadlinkController.send`: convert a single
command token according to the controller's encoding.  Hex: unhexlify then
base64 (a `binascii.Error` becomes the Hex conversion `ValueError`); Pronto:
strip spaces, `fromhex`, `pronto2lirc`, `lirc2broadlink`, then base64 (a
caught failure becomes the Pronto conversion `ValueError`); anything else
(Base64) passes through. -/
def prontoPipeline (item : String) : Except PyErr (List ℕ) :=
  match fromhex (stripSpaces item) with
  | .error e => .error e
  | .ok prontoBytes =>
    match Helper.pronto2lirc prontoBytes with
    | .error e => .error e
    | .ok pulses => Helper.lirc2broadlink pulses

/-- Dispatch on the encoding, as the `for item in command` body does. -/
def broadlinkConvert (encoding item : String) : Except PyErr String :=
  if encoding = "Hex" then
    match unhexlify item with
    | .error _ => .error (.valueError "Error while converting Hex to Base64 encoding")
    | .ok raw => .ok (b64encode raw)
  else if encoding = "Pronto" then
    match prontoPipeline item with
    | .error e =>
      if caughtByPronto e then
        .error (.valueError "Error while converting Pronto to Base64 encoding")
      else .error e
    | .ok packet => .ok (b64encode packet)
  else .ok item

/-- The parameter map passed to `hass.services.async_call`. -/
structure ServiceCall where
  domain : String
  service : String
  entity_id : String
  command : List String
  delay_secs : ℚ
deriving DecidableEq

/-- The command-building loop of `BroadlinkController.send`: each token is
converted and prefixed with the literal marker; the first conversion failure
aborts the whole send. -/
def broadlinkCommands (encoding : String) : List String → Except PyErr (List String)
  | [] => .ok []
  | item :: rest =>
    match broadlinkConvert encoding item with
    | .error e => .error e
    | .ok conv =>
      match broadlinkCommands encoding rest with
      | .error e => .error e
      | .ok t => .ok (("b64:" ++ conv) :: t)

namespace BroadlinkController

/-- Embeds `BroadlinkController.send`: build the converted, prefixed command list
and dispatch it to the `remote.send_command` service; a conversion failure
surfaces before anything is dispatched. -/
def send (c : ControllerState) (command : List String) : Except PyErr ServiceCall :=
  match broadlinkCommands c.encoding command with
  | .error e => .error e
  | .ok commands => .ok ⟨"remote", "send_command", c.controller_data, commands, c.delay⟩

end BroadlinkController

lemma isMalformed_caught (e : PyErr) (h : isMalformed e) : caughtByPronto e = true := by
  rcases h with h | h <;> subst h <;> rfl

lemma broadlinkCommands_passthrough (cmds : List String) :
    broadlinkCommands "Base64" cmds = .ok (cmds.map (fun t => "b64:" ++ t)) := by
  induction cmds with
  | nil => rfl
  | cons item rest ih =>
    rw [broadlinkCommands, ih]
    rfl

lemma broadlinkCommands_marked (encoding : String) (cmds l : List String)
    (h : broadlinkCommands encoding cmds = .ok l) :
    ∀ t ∈ l, ∃ s, t = "b64:" ++ s := by
  induction cmds generalizing l with
  | nil =>
    rw [broadlinkCommands] at h
    cases h
    intro t ht
    exact absurd ht (List.not_mem_nil t)
  | cons item rest ih =>
    rw [broadlinkCommands] at h
    cases hc : broadlinkConvert encoding item with
    | error e => rw [hc] at h; exact Except.noConfusion h
    | ok conv =>
      rw [hc] at h
      cases hr : broadlinkCommands encoding rest with
      | error e => rw [hr] at h; exact Except.noConfusion h
      | ok t =>
        rw [hr] at h
        cases h
        intro x hx
        rcases List.mem_cons.mp hx with hx | hx
        · exact ⟨conv, hx⟩
        · exact ih t hr x hx

/-- C7: `BroadlinkController.send` converts each token by encoding — Hex:
unhexlify then base64; Pronto: `fromhex`, `pronto2lirc`, `lirc2broadlink`,
then base64, with a `MalformedCode` failure surfacing as the Pronto
conversion `ValueError` and nothing dispatched; Base64: pass-through — and
every token in a dispatched call carries the literal `b64:` prefix. -/
theorem broadlink_send_spec (c : ControllerState) (item : String) (cmds : List String) :
    (c.encoding = "Hex" → ∀ raw, unhexlify item = .ok raw →
      BroadlinkController.send c [item] =
        .ok ⟨"remote", "send_command", c.controller_data,
             ["b64:" ++ b64encode raw], c.delay⟩) ∧
    (c.encoding = "Pronto" → ∀ pulses packet,
      (∃ pb, fromhex (stripSpaces item) = .ok pb ∧ Helper.pronto2lirc pb = .ok pulses) →
      Helper.lirc2broadlink pulses = .ok packet →
      BroadlinkController.send c [item] =
        .ok ⟨"remote", "send_command", c.controller_data,
             ["b64:" ++ b64encode packet], c.delay⟩) ∧
    (c.encoding = "Pronto" → ∀ e,
      (∃ pb, fromhex (stripSpaces item) = .ok pb ∧ Helper.pronto2lirc pb = .error e) →
      isMalformed e →
      BroadlinkController.send c [item] =
        .error (.valueError "Error while converting Pronto to Base64 encoding")) ∧
    (c.encoding = "Base64" →
      BroadlinkController.send c cmds =
        .ok ⟨"remote", "send_command", c.controller_data,
             cmds.map (fun t => "b64:" ++ t), c.delay⟩) ∧
    (∀ sc, BroadlinkController.send c cmds = .ok sc →
      ∀ t ∈ sc.command, ∃ s, t = "b64:" ++ s) := by
  refine ⟨?_, ?_, ?_, ?_, ?_⟩
  · intro henc raw hraw
    rw [BroadlinkController.send, henc]
    simp [broadlinkCommands, broadlinkConvert, hraw]
  · rintro henc pulses packet ⟨pb, hpb, hpl⟩ hpk
    rw [BroadlinkController.send, henc]
    simp [broadlinkCommands, broadlinkConvert, prontoPipeline, hpb, hpl, hpk]
  · rintro henc e ⟨pb, hpb, hpl⟩ hmal
    rw [BroadlinkController.send, henc]
    simp [broadlinkCommands, broadlinkConvert, prontoPipeline, hpb, hpl,
      isMalformed_caught e hmal]
  · intro henc
    rw [BroadlinkController.send, henc, broadlinkCommands_passthrough]
  · intro sc hsc t ht
    rw [BroadlinkController.send] at hsc
    cases hcl : broadlinkCommands c.encoding cmds with
    | error e => rw [hcl] at hsc; exact Except.noConfusion hsc
    | ok l =>
      rw [hcl] at hsc
      cases hsc
      exact broadlinkCommands_marked c.encoding cmds l hcl t ht

/-- C7 witness: the spec's Hex example, `send("00ff")` on a Hex-encoded
Broadlink controller. -/
theorem broadlink_send_spec_holds :
    (ControllerState.mk .broadlink "Broadlink" "Hex" "remote.rm" 0).encoding = "Hex" ∧
    unhexlify "00ff" = .ok [0, 255] ∧
    BroadlinkController.send (ControllerState.mk .broadlink "Broadlink" "Hex" "remote.rm" 0)
        ["00ff"] =
      .ok ⟨"remote", "send_command", "remote.rm", ["b64:" ++ b64encode [0, 255]], 0⟩ :=
  ⟨rfl, rfl,
   (broadlink_send_spec (ControllerState.mk .broadlink "Broadlink" "Hex" "remote.rm" 0)
     "00ff" []).1 rfl [0, 255] rfl⟩

/-!  ZHA learn loop, `ZHAController.learn`.  The dispatch sink is abstracted
by an environment: what each `_read_code` call yields (`none` models both a
failed read and a response without a value), and whether the begin-learn and
end-learn `issue_zigbee_cluster_command` dispatches succeed.  Time is the
spec's abstract unit: each loop iteration sleeps one unit and the loop runs
while the elapsed time is below the timeout, so a session performs at most
`timeout` polls. -/

/-- Outcomes of the external dispatch sink during one learn session. -/
structure LearnEnv where
  readResults : ℕ → Option String
  enterLearnOk : Bool
  exitLearnOk : Bool

/-- Observable actions of a learn session, in order. -/
inductive LearnEvent where
  | readAttr
  | enterLearn
  | sleep
  | exitLearn (ok : Bool)
deriving DecidableEq, Repr

/-- Marks the end-learn dispatch, successful or not. -/
def isExitLearn : LearnEvent → Bool
  | .exitLearn _ => true
  | _ => false

/-- Marks one poll-interval wait. -/
def isSleep : LearnEvent → Bool
  | .sleep => true
  | _ => false

/-- The Python condition `code and code != initial_code`: the polled value
must be truthy (present and non-empty) and differ from the baseline. -/
def captures (code initial : Option String) : Bool :=
  match code with
  | none => false
  | some s => (s != "") && (some s != initial)

/-- The `while time.monotonic() < end` loop: each remaining time unit sleeps,
reads the attribute, and either captures (dispatching the end-learn command
and returning the code) or keeps polling; when time runs out the end-learn
command is dispatched best-effort and no code is returned.  The end-learn
dispatch is inside `try`/`except`, so its outcome `env.exitLearnOk` is
recorded in the trace but cannot influence the result. -/
def pollLoop (env : LearnEnv) (initial : Option String) (k : ℕ) :
    ℕ → Option String × List LearnEvent
  | 0 => (none, [.exitLearn env.exitLearnOk])
  | fuel + 1 =>
    let code := env.readResults k
    if captures code initial then
      (code, [.sleep, .readAttr, .exitLearn env.exitLearnOk])
    else
      let r := pollLoop env initial (k + 1) fuel
      (r.1, .sleep :: .readAttr :: r.2)

namespace ZHAController

/-- Embeds `ZHAController.learn`: read the baseline (read failures yield no
baseline), issue the begin-learn dispatch — unguarded in the source, so its
failure propagates as an exception — then run the polling loop. -/
def learn (env : LearnEnv) (timeout : ℕ) :
    Except PyErr (Option String) × List LearnEvent :=
  let initial := env.readResults 0
  if env.enterLearnOk then
    let r := pollLoop env initial 1 timeout
    (.ok r.1, .readAttr :: .enterLearn :: r.2)
  else
    (.error .transportError, [.readAttr, .enterLearn])

end ZHAController

/-- Replace the end-learn dispatch outcome, leaving everything else. -/
def withExit (env : LearnEnv) (b : Bool) : LearnEnv :=
  ⟨env.readResults, env.enterLearnOk, b⟩

lemma pollLoop_exit_count (env : LearnEnv) (initial : Option String) (k fuel : ℕ) :
    ((pollLoop env initial k fuel).2.countP isExitLearn) = 1 := by
  induction fuel generalizing k with
  | zero => rfl
  | succ n ih =>
    rw [pollLoop]
    by_cases h : captures (env.readResults k) initial
    · simp [h, List.countP, List.countP.go, isExitLearn]
    · simp only [h, if_neg, Bool.false_eq_true, not_false_iff, if_false]
      simp [List.countP_cons, isExitLearn, ih (k + 1)]

lemma withExit_read (env : LearnEnv) (b : Bool) :
    (withExit env b).readResults = env.readResults := rfl

lemma pollLoop_exit_irrelevant (env : LearnEnv) (b : Bool) (initial : Option String)
    (k fuel : ℕ) :
    (pollLoop (withExit env b) initial k fuel).1 = (pollLoop env initial k fuel).1 := by
  induction fuel generalizing k with
  | zero => rfl
  | succ n ih =>
    rw [pollLoop, pollLoop]
    by_cases h : captures (env.readResults k) initial
    · simp [withExit_read, h]
    · simp [withExit_read, h, ih (k + 1)]

lemma pollLoop_result (env : LearnEnv) (initial : Option String) (k fuel : ℕ) :
    ((pollLoop env initial k fuel).1 = none ∧
      ∀ i, k ≤ i → i < k + fuel → captures (env.readResults i) initial = false) ∨
    (∃ j, k ≤ j ∧ j < k + fuel ∧
      (pollLoop env initial k fuel).1 = env.readResults j ∧
      captures (env.readResults j) initial = true ∧
      ∀ i, k ≤ i → i < j → captures (env.readResults i) initial = false) := by
  induction fuel generalizing k with
  | zero =>
    left
    exact ⟨rfl, fun i hi hi2 => absurd hi2 (by omega)⟩
  | succ n ih =>
    rw [pollLoop]
    by_cases h : captures (env.readResults k) initial
    · right
      exact ⟨k, le_refl k, by omega, by simp [h], h, fun i hi hi2 => absurd hi2 (by omega)⟩
    · rcases ih (k + 1) with ⟨hres, hall⟩ | ⟨j, hj1, hj2, hres, hcap, hfirst⟩
      · left
        refine ⟨by simp [h, hres], fun i hi hi2 => ?_⟩
        rcases Nat.eq_or_lt_of_le hi with rfl | hlt
        · simpa using h
        · exact hall i hlt (by omega)
      · right
        refine ⟨j, by omega, by omega, by simp [h, hres], hcap, fun i hi hi2 => ?_⟩
        rcases Nat.eq_or_lt_of_le hi with rfl | hlt
        · simpa using h
        · exact hfirst i hlt hi2

lemma withExit_enter (env : LearnEnv) (b : Bool) :
    (withExit env b).enterLearnOk = env.enterLearnOk := rfl

lemma pollLoop_sleep_count (env : LearnEnv) (initial : Option String) (k fuel : ℕ) :
    ((pollLoop env initial k fuel).2.countP isSleep) ≤ fuel := by
  induction fuel generalizing k with
  | zero => simp [pollLoop, List.countP_cons, isSleep]
  | succ n ih =>
    rw [pollLoop]
    by_cases h : captures (env.readResults k) initial
    · simp [h, List.countP_cons, isSleep]
    · have := ih (k + 1)
      simp only [h, Bool.false_eq_true, not_false_iff, if_false]
      simp [List.countP_cons, isSleep]
      omega

/-- C4: once the begin-learn dispatch has succeeded, a learn session issues
exactly one end-learn dispatch on every terminal path; its result is
unaffected by an end-learn dispatch failure (the exception is swallowed);
and it terminates either at the first polled value that is truthy and
differs from the baseline (returning exactly that code) or at the deadline
without one (returning none). -/
theorem zha_learn_cleanup (env : LearnEnv) (timeout : ℕ)
    (henter : env.enterLearnOk = true) :
    ((ZHAController.learn env timeout).2.countP isExitLearn = 1) ∧
    (∀ b, (ZHAController.learn (withExit env b) timeout).1 =
      (ZHAController.learn env timeout).1) ∧
    (((ZHAController.learn env timeout).1 = .ok none ∧
       ∀ i, 1 ≤ i → i < 1 + timeout →
         captures (env.readResults i) (env.readResults 0) = false) ∨
     (∃ j, 1 ≤ j ∧ j < 1 + timeout ∧
       (ZHAController.learn env timeout).1 = .ok (env.readResults j) ∧
       captures (env.readResults j) (env.readResults 0) = true ∧
       ∀ i, 1 ≤ i → i < j →
         captures (env.readResults i) (env.readResults 0) = false)) := by
  refine ⟨?_, ?_, ?_⟩
  · rw [ZHAController.learn]
    simp [henter, List.countP_cons, isExitLearn, pollLoop_exit_count]
  · intro b
    rw [ZHAController.learn, ZHAController.learn]
    simp [withExit_read, withExit_enter, henter, pollLoop_exit_irrelevant]
  · rcases pollLoop_result env (env.readResults 0) 1 timeout with
      ⟨hres, hall⟩ | ⟨j, hj1, hj2, hres, hcap, hfirst⟩
    · left
      refine ⟨?_, hall⟩
      rw [ZHAController.learn]
      simp [henter, hres]
    · right
      refine ⟨j, hj1, hj2, ?_, hcap, hfirst⟩
      rw [ZHAController.learn]
      simp [henter, hres]

/-- C4 witness: the spec scenario — baseline "A", then polls "A" and "B". -/
theorem zha_learn_cleanup_holds :
    (LearnEnv.mk
      (fun k => if k = 0 then some "A" else if k = 1 then some "A"
                else if k = 2 then some "B" else none) true true).enterLearnOk = true ∧
    (ZHAController.learn
      (LearnEnv.mk
        (fun k => if k = 0 then some "A" else if k = 1 then some "A"
                  else if k = 2 then some "B" else none) true true) 30).2.countP
      isExitLearn = 1 ∧
    (ZHAController.learn
      (LearnEnv.mk
        (fun k => if k = 0 then some "A" else if k = 1 then some "A"
                  else if k = 2 then some "B" else none) true true) 30).1 =
      .ok (some "B") :=
  ⟨rfl,
   (zha_learn_cleanup
     (LearnEnv.mk
       (fun k => if k = 0 then some "A" else if k = 1 then some "A"
                 else if k = 2 then some "B" else none) true true) 30 rfl).1,
   rfl⟩

/-- C5 counterexample: when the begin-learn dispatch fails, `learn` does not
return none — the exception propagates to the caller. -/
theorem zha_learn_enter_fail_raises :
    (ZHAController.learn (LearnEnv.mk (fun _ => none) false true) 30).1 =
      .error .transportError ∧
    (ZHAController.learn (LearnEnv.mk (fun _ => none) false true) 30).1 ≠
      .ok none := by
  have h : (ZHAController.learn (LearnEnv.mk (fun _ => none) false true) 30).1 =
      .error .transportError := rfl
  refine ⟨h, ?_⟩
  intro hcontra
  rw [h] at hcontra
  exact Except.noConfusion hcontra

/-- C5 (amended): a failing begin-learn dispatch aborts the session before
the polling phase — no poll sleep and no end-learn dispatch occur — and the
dispatch error propagates out of `learn` instead of an optional code being
returned. -/
theorem zha_learn_enter_fail (env : LearnEnv) (timeout : ℕ)
    (henter : env.enterLearnOk = false) :
    (ZHAController.learn env timeout).1 = .error .transportError ∧
    (ZHAController.learn env timeout).2.countP isExitLearn = 0 ∧
    (ZHAController.learn env timeout).2.countP isSleep = 0 := by
  rw [ZHAController.learn]
  simp [henter, List.countP_cons, isExitLearn, isSleep]

/-- C5 witness input. -/
theorem zha_learn_enter_fail_holds :
    (LearnEnv.mk (fun _ => some "A") false false).enterLearnOk = false ∧
    (ZHAController.learn (LearnEnv.mk (fun _ => some "A") false false) 5).1 =
      .error .transportError ∧
    (ZHAController.learn (LearnEnv.mk (fun _ => some "A") false false) 5).2.countP
      isExitLearn = 0 :=
  ⟨rfl,
   (zha_learn_enter_fail (LearnEnv.mk (fun _ => some "A") false false) 5 rfl).1,
   (zha_learn_enter_fail (LearnEnv.mk (fun _ => some "A") false false) 5 rfl).2.1⟩

/-- C8: every learn invocation terminates within its deadline: a session
sleeps at most `timeout` poll intervals, and once polling is entered it
always reaches a terminal result — a captured code or none — with no
external cancellation. -/
theorem zha_learn_terminates (env : LearnEnv) (timeout : ℕ) :
    (ZHAController.learn env timeout).2.countP isSleep ≤ timeout ∧
    (env.enterLearnOk = true →
      (ZHAController.learn env timeout).1 = .ok none ∨
      ∃ s, (ZHAController.learn env timeout).1 = .ok (some s)) := by
  constructor
  · rw [ZHAController.learn]
    by_cases henter : env.enterLearnOk = true
    · have := pollLoop_sleep_count env (env.readResults 0) 1 timeout
      simp [henter, List.countP_cons, isSleep]
      omega
    · simp only [Bool.not_eq_true] at henter
      simp [henter, List.countP_cons, isSleep]
  · intro henter
    rw [ZHAController.learn]
    simp only [henter, if_true]
    cases hres : (pollLoop env (env.readResults 0) 1 timeout).1 with
    | none => left; simp [hres]
    | some s => right; exact ⟨s, by simp [hres]⟩

/-- C8 witness: a session that never sees a code. -/
theorem zha_learn_terminates_holds :
    (ZHAController.learn (LearnEnv.mk (fun _ => none) true true) 2).2.countP
      isSleep ≤ 2 ∧
    ((ZHAController.learn (LearnEnv.mk (fun _ => none) true true) 2).1 = .ok none ∨
     ∃ s, (ZHAController.learn (LearnEnv.mk (fun _ => none) true true) 2).1 =
       .ok (some s)) :=
  ⟨(zha_learn_terminates (LearnEnv.mk (fun _ => none) true true) 2).1,
   (zha_learn_terminates (LearnEnv.mk (fun _ => none) true true) 2).2 rfl⟩

/-- C10: a poll transitions the session to capture only when the value is
truthy (present and non-empty) and differs from the baseline: a present but
empty value is never captured, even though it differs from the baseline; and
when the baseline read failed, any non-empty polled value is captured. -/
theorem zha_capture_condition (env : LearnEnv) (timeout : ℕ) :
    (∀ initial, captures (some "") initial = false) ∧
    (∀ s, s ≠ "" → captures (some s) none = true) ∧
    (env.enterLearnOk = true → (∀ k, 1 ≤ k → env.readResults k = some "") →
      (ZHAController.learn env timeout).1 = .ok none) ∧
    (env.enterLearnOk = true → env.readResults 0 = none → 1 ≤ timeout →
      ∀ s, s ≠ "" → env.readResults 1 = some s →
      (ZHAController.learn env timeout).1 = .ok (some s)) := by
  refine ⟨fun initial => rfl, fun s hs => by simp [captures, hs], ?_, ?_⟩
  · intro henter hempty
    rw [ZHAController.learn]
    simp only [henter, if_true]
    rcases pollLoop_result env (env.readResults 0) 1 timeout with
      ⟨hres, _⟩ | ⟨j, hj1, _, _, hcap, _⟩
    · simp [hres]
    · rw [hempty j hj1] at hcap
      exact absurd hcap (by simp [captures])
  · intro henter h0 htime s hs h1
    obtain ⟨t, rfl⟩ : ∃ t, timeout = t + 1 := ⟨timeout - 1, by omega⟩
    rw [ZHAController.learn]
    simp only [henter, if_true]
    rw [pollLoop]
    have hc : captures (some s) (env.readResults 0) = true := by
      rw [h0]
      simp [captures, hs]
    simp [h1, hc]

/-- C10 witness: no baseline, first poll "B". -/
theorem zha_capture_condition_holds :
    (LearnEnv.mk (fun k => if k = 0 then none else some "B") true true).enterLearnOk
      = true ∧
    (LearnEnv.mk (fun k => if k = 0 then none else some "B") true true).readResults 0
      = none ∧
    (1 : ℕ) ≤ 2 ∧ "B" ≠ "" ∧
    (LearnEnv.mk (fun k => if k = 0 then none else some "B") true true).readResults 1
      = some "B" ∧
    (ZHAController.learn
      (LearnEnv.mk (fun k => if k = 0 then none else some "B") true true) 2).1 =
      .ok (some "B") :=
  ⟨rfl, rfl, by omega, by decide, rfl,
   (zha_capture_condition
     (LearnEnv.mk (fun k => if k = 0 then none else some "B") true true) 2).2.2.2
     rfl rfl (by omega) "B" (by decide) rfl⟩
